import Mathlib

/-!
Verification of the route-matching and condition-evaluation engine of the
openhqm-rm repository (files `src/services/routeMatcher.ts` and
`src/store/simulationStore.ts`), as a shallow embedding in Lean.

JSON values are modelled by the inductive `Json`; JavaScript `undefined` is
modelled by `Option Json` with `none` for `undefined`.  The external JQ
capability (`jqService.transform`) and the JavaScript regular-expression
test (`new RegExp(e).test(s)`) are modelled as components of a `JsEnv`
parameter; both may raise (modelled with `Except String`), matching the
TypeScript code where those calls sit inside `try`/`catch` blocks.
Wall-clock durations (`performance.now()`) are not modelled.
-/

/-- A JSON value.  Numbers are modelled as integers; none of the verified
behaviour depends on non-integer numerics. -/
inductive Json where
  | null : Json
  | bool (b : Bool) : Json
  | num (n : Int) : Json
  | str (s : String) : Json
  | arr (elems : List Json) : Json
  | obj (fields : List (String × Json)) : Json

mutual

/-- Decidable equality on JSON values (the automatic deriver does not
handle the nested lists). -/
def Json.decEq : (a b : Json) → Decidable (a = b)
  | .null, .null => isTrue rfl
  | .null, .bool _ => isFalse (fun h => Json.noConfusion h)
  | .null, .num _ => isFalse (fun h => Json.noConfusion h)
  | .null, .str _ => isFalse (fun h => Json.noConfusion h)
  | .null, .arr _ => isFalse (fun h => Json.noConfusion h)
  | .null, .obj _ => isFalse (fun h => Json.noConfusion h)
  | .bool _, .null => isFalse (fun h => Json.noConfusion h)
  | .bool x, .bool y =>
      if h : x = y then isTrue (by rw [h]) else isFalse (fun he => h (Json.bool.inj he))
  | .bool _, .num _ => isFalse (fun h => Json.noConfusion h)
  | .bool _, .str _ => isFalse (fun h => Json.noConfusion h)
  | .bool _, .arr _ => isFalse (fun h => Json.noConfusion h)
  | .bool _, .obj _ => isFalse (fun h => Json.noConfusion h)
  | .num _, .null => isFalse (fun h => Json.noConfusion h)
  | .num _, .bool _ => isFalse (fun h => Json.noConfusion h)
  | .num x, .num y =>
      if h : x = y then isTrue (by rw [h]) else isFalse (fun he => h (Json.num.inj he))
  | .num _, .str _ => isFalse (fun h => Json.noConfusion h)
  | .num _, .arr _ => isFalse (fun h => Json.noConfusion h)
  | .num _, .obj _ => isFalse (fun h => Json.noConfusion h)
  | .str _, .null => isFalse (fun h => Json.noConfusion h)
  | .str _, .bool _ => isFalse (fun h => Json.noConfusion h)
  | .str _, .num _ => isFalse (fun h => Json.noConfusion h)
  | .str x, .str y =>
      if h : x = y then isTrue (by rw [h]) else isFalse (fun he => h (Json.str.inj he))
  | .str _, .arr _ => isFalse (fun h => Json.noConfusion h)
  | .str _, .obj _ => isFalse (fun h => Json.noConfusion h)
  | .arr _, .null => isFalse (fun h => Json.noConfusion h)
  | .arr _, .bool _ => isFalse (fun h => Json.noConfusion h)
  | .arr _, .num _ => isFalse (fun h => Json.noConfusion h)
  | .arr _, .str _ => isFalse (fun h => Json.noConfusion h)
  | .arr l, .arr m =>
      match Json.decEqList l m with
      | isTrue h => isTrue (by rw [h])
      | isFalse h => isFalse (fun he => h (Json.arr.inj he))
  | .arr _, .obj _ => isFalse (fun h => Json.noConfusion h)
  | .obj _, .null => isFalse (fun h => Json.noConfusion h)
  | .obj _, .bool _ => isFalse (fun h => Json.noConfusion h)
  | .obj _, .num _ => isFalse (fun h => Json.noConfusion h)
  | .obj _, .str _ => isFalse (fun h => Json.noConfusion h)
  | .obj _, .arr _ => isFalse (fun h => Json.noConfusion h)
  | .obj fs, .obj gs =>
      match Json.decEqFields fs gs with
      | isTrue h => isTrue (by rw [h])
      | isFalse h => isFalse (fun he => h (Json.obj.inj he))

/-- Decidable equality on lists of JSON values. -/
def Json.decEqList : (l m : List Json) → Decidable (l = m)
  | [], [] => isTrue rfl
  | [], _ :: _ => isFalse (fun h => List.noConfusion h)
  | _ :: _, [] => isFalse (fun h => List.noConfusion h)
  | a :: l, b :: m =>
      match Json.decEq a b with
      | isFalse h => isFalse (fun he => by cases he; exact h rfl)
      | isTrue h1 =>
        match Json.decEqList l m with
        | isFalse h => isFalse (fun he => by cases he; exact h rfl)
        | isTrue h2 => isTrue (by rw [h1, h2])

/-- Decidable equality on JSON object field lists. -/
def Json.decEqFields : (l m : List (String × Json)) → Decidable (l = m)
  | [], [] => isTrue rfl
  | [], _ :: _ => isFalse (fun h => List.noConfusion h)
  | _ :: _, [] => isFalse (fun h => List.noConfusion h)
  | (k1, v1) :: l, (k2, v2) :: m =>
      if hk : k1 = k2 then
        match Json.decEq v1 v2 with
        | isFalse h => isFalse (fun he => by cases he; exact h rfl)
        | isTrue h1 =>
          match Json.decEqFields l m with
          | isFalse h => isFalse (fun he => by cases he; exact h rfl)
          | isTrue h2 => isTrue (by rw [hk, h1, h2])
      else isFalse (fun he => by cases he; exact hk rfl)

end

instance : DecidableEq Json := Json.decEq

/-- Decides whether every character of the list is a decimal digit. -/
def charsDigits : List Char → Bool
  | [] => true
  | c :: rest => c.isDigit && charsDigits rest

/-- Decimal value of a digit character list, with accumulator. -/
def charsToNatAux (acc : Nat) : List Char → Nat
  | [] => acc
  | c :: rest => charsToNatAux (acc * 10 + (c.toNat - 48)) rest

/-- Canonical numeric property keys: JavaScript exposes an array or string
element under the key `k` exactly when `k` is the canonical decimal string
of its index, i.e. a digit string with no leading zero (so "1" is an
index key but "01" is not; "0" is the single canonical string with a
leading zero).  Indices at or above 2 to the 32 are not modelled. -/
def canonicalIndex (k : String) : Option Nat :=
  match k.toList with
  | [] => none
  | c :: rest =>
      if charsDigits (c :: rest) && (c != '0' || rest.isEmpty) then
        some (charsToNatAux 0 (c :: rest))
      else none

/-- One step of `current?.[key]` from `getNestedValue` in routeMatcher.ts,
on a JSON value; `none` is JavaScript `undefined`.  `null` short-circuits
to `undefined` via the optional chaining operator.  Booleans and numbers
own no JSON-valued properties.  Strings and arrays expose `length` and
their canonical element indices (own data properties in JavaScript);
prototype methods are functions, which fall outside the JSON model and
are treated as absent.  Objects are association lists with first-key-wins
lookup (JavaScript object keys are unique). -/
def jsIndex : Json → String → Option Json
  | .null, _ => none
  | .bool _, _ => none
  | .num _, _ => none
  | .str s, k =>
      if k = "length" then some (.num (s.length : Int))
      else
        match canonicalIndex k with
        | some i => (s.toList.get? i).map (fun c => Json.str (String.singleton c))
        | none => none
  | .arr l, k =>
      if k = "length" then some (.num (l.length : Int))
      else
        match canonicalIndex k with
        | some i => l.get? i
        | none => none
  | .obj fields, k => fields.lookup k

/-- Character-level splitting on the dot character, modelling
`path.split('.')`: the empty string yields one empty segment, and every
dot starts a new segment. -/
def splitCharsDot : List Char → List (List Char)
  | [] => [[]]
  | c :: rest =>
      if c = '.' then [] :: splitCharsDot rest
      else
        match splitCharsDot rest with
        | [] => [[c]]
        | g :: gs => (c :: g) :: gs

/-- JavaScript `path.split('.')` as a list of strings. -/
def jsSplitDot (path : String) : List String :=
  (splitCharsDot path.toList).map (fun cs => String.mk cs)

/-- Model of `RouteMatcher.getNestedValue`:
`path.split('.').reduce((current, key) => current?.[key], obj)`. -/
def getNestedValue (o : Json) (path : String) : Option Json :=
  (jsSplitDot path).foldl (fun current key => current.bind (fun v => jsIndex v key)) (some o)

mutual

/-- JavaScript `String(v)` on a JSON value. -/
def jsToStringJ : Json → String
  | .null => "null"
  | .bool b => cond b "true" "false"
  | .num n => toString n
  | .str s => s
  | .arr l => String.intercalate "," (jsArrStrs l)
  | .obj _ => "[object Object]"

/-- Element strings for `Array.prototype.toString` (join with ","):
`null` and `undefined` elements become the empty string. -/
def jsArrStrs : List Json → List String
  | [] => []
  | Json.null :: rest => "" :: jsArrStrs rest
  | j :: rest => jsToStringJ j :: jsArrStrs rest

end

/-- JavaScript `String(v)` where `v` may be `undefined`. -/
def jsToString : Option Json → String
  | none => "undefined"
  | some j => jsToStringJ j

/-- Decides whether the character list `needle` is a leading segment of
`hay`. -/
def charsStartWith : List Char → List Char → Bool
  | _, [] => true
  | [], _ :: _ => false
  | h :: hs, n :: ns => h = n && charsStartWith hs ns

/-- Decides whether `needle` occurs contiguously inside `hay`. -/
def charsContain (needle : List Char) : List Char → Bool
  | [] => charsStartWith [] needle
  | h :: t => charsStartWith (h :: t) needle || charsContain needle t

/-- JavaScript `s.includes(sub)`. -/
def strIncludes (s sub : String) : Bool :=
  charsContain sub.toList s.toList

/-- JavaScript strict equality `===` restricted to JSON values (with
`none` for `undefined`).  Arrays and objects compare by reference in
JavaScript; the engine always compares a value resolved from the run
context against a configured literal, which are never the same object
reference, so those cases are `false`. -/
def jsStrictEq : Option Json → Option Json → Bool
  | none, none => true
  | some a, some b =>
      match a, b with
      | .null, .null => true
      | .bool x, .bool y => x == y
      | .num x, .num y => x == y
      | .str x, .str y => x == y
      | _, _ => false
  | _, _ => false

/-- JavaScript `Boolean(v)` on a JSON value or `undefined`: `false`,
`null`, `undefined`, `0` and the empty string are falsy; everything else
is truthy. -/
def jsTruthy : Option Json → Bool
  | none => false
  | some .null => false
  | some (.bool b) => b
  | some (.num n) => n != 0
  | some (.str s) => s != ""
  | some (.arr _) => true
  | some (.obj _) => true

/-- Modelled from the spec: JQ truthiness of an emitted value, following
the words of the specification ("any value other than false/null is
truthy").  Stated for comparison with the implemented check. -/
def jqTruthySpec : Json → Bool
  | .null => false
  | .bool b => b
  | _ => true

/-- JavaScript `x || d` for a string-or-undefined `x`: the empty string
is falsy. -/
def jsStrOr : Option String → String → String
  | some s, d => if s = "" then d else s
  | none, d => d

/-- One routing condition (`RouteCondition` in types/route.ts).  The
`type` and `operator` fields are strings at runtime in TypeScript; the
matcher switches on their values with a default branch, so they are
modelled as `String`. -/
structure RouteCondition where
  type : String
  field : Option String
  operator : String
  value : Option Json
  jqExpression : Option String
deriving DecidableEq

/-- Transform configuration of a route (`TransformConfig`). -/
structure TransformConfig where
  enabled : Bool
  jqExpression : String
deriving DecidableEq

/-- Destination of a route; only `target` is read by the engine. -/
structure DestinationConfig where
  target : String
deriving DecidableEq

/-- A routing rule (`Route` in types/route.ts), restricted to the fields
the matching engine reads. -/
structure Route where
  id : String
  name : String
  enabled : Bool
  priority : Int
  conditions : List RouteCondition
  conditionOperator : String
  transform : Option TransformConfig
  destination : DestinationConfig
deriving DecidableEq

/-- The input bundle of one simulation (`SimulationContext.input`). -/
structure SimInput where
  payload : Json
  headers : List (String × String)
  metadata : List (String × Json)
deriving DecidableEq

/-- Result object of `jqService.transform` (`TransformResult`). -/
structure TransformResult where
  success : Bool
  output : Option Json
  error : Option String
  suggestions : List String
deriving DecidableEq

/-- The external JavaScript capabilities the engine calls into.  `jq`
models `jqService.transform` and `regexTest` models
`new RegExp(expected).test(s)`; either call may raise, modelled with
`Except String`. -/
structure JsEnv where
  jq : String → Json → Except String TransformResult
  regexTest : Option Json → String → Except String Bool

/-- Model of `RouteMatcher.compareValues`.  The `regex` arm sits in a
`try`/`catch` returning `false` on a raised error (invalid pattern). -/
def compareValues (env : JsEnv) (actual : Option Json) (op : String)
    (expected : Option Json) : Bool :=
  if op = "equals" then jsStrictEq actual expected
  else if op = "contains" then strIncludes (jsToString actual) (jsToString expected)
  else if op = "regex" then
    match env.regexTest expected (jsToString actual) with
    | .ok b => b
    | .error _ => false
  else if op = "exists" then
    match actual with
    | none => false
    | some .null => false
    | some _ => true
  else false

/-- Model of `RouteMatcher.evaluateJQCondition`.  The guard
`!condition.jqExpression` is falsy for a missing and for an empty
expression; a raised error from the JQ call is caught and yields
`false`; otherwise the result is `result.success && Boolean(result.output)`. -/
def evaluateJQCondition (env : JsEnv) (c : RouteCondition) (ctx : SimInput) : Bool :=
  match c.jqExpression with
  | none => false
  | some e =>
      if e = "" then false
      else
        match env.jq e ctx.payload with
        | .error _ => false
        | .ok r => r.success && jsTruthy r.output

/-- Model of `RouteMatcher.evaluatePayloadCondition`: guard on a falsy
`field`, resolve through `getNestedValue`, compare. -/
def evaluatePayloadCondition (env : JsEnv) (c : RouteCondition) (ctx : SimInput) : Bool :=
  match c.field with
  | none => false
  | some f =>
      if f = "" then false
      else compareValues env (getNestedValue ctx.payload f) c.operator c.value

/-- Model of `RouteMatcher.evaluateHeaderCondition`: the header map is
indexed with the whole field string as one literal key. -/
def evaluateHeaderCondition (env : JsEnv) (c : RouteCondition) (ctx : SimInput) : Bool :=
  match c.field with
  | none => false
  | some f =>
      if f = "" then false
      else compareValues env ((ctx.headers.lookup f).map Json.str) c.operator c.value

/-- Model of `RouteMatcher.evaluateMetadataCondition`: the metadata map
is indexed with the whole field string as one literal key
(`context.input.metadata[condition.field]`). -/
def evaluateMetadataCondition (env : JsEnv) (c : RouteCondition) (ctx : SimInput) : Bool :=
  match c.field with
  | none => false
  | some f =>
      if f = "" then false
      else compareValues env (ctx.metadata.lookup f) c.operator c.value

/-- Model of `RouteMatcher.evaluateCondition`: switch on the condition
type string with a `default` branch returning `false`. -/
def evaluateCondition (env : JsEnv) (c : RouteCondition) (ctx : SimInput) : Bool :=
  if c.type = "jq" then evaluateJQCondition env c ctx
  else if c.type = "payload" then evaluatePayloadCondition env c ctx
  else if c.type = "header" then evaluateHeaderCondition env c ctx
  else if c.type = "metadata" then evaluateMetadataCondition env c ctx
  else false

/-- Model of `RouteMatcher.evaluateConditions`: an empty condition list
always matches; otherwise the per-condition results are combined with
`every` under the operator string "AND" and with `some` otherwise. -/
def evaluateConditions (env : JsEnv) (r : Route) (ctx : SimInput) : Bool :=
  if r.conditions = [] then true
  else
    let results := r.conditions.map (fun c => evaluateCondition env c ctx)
    if r.conditionOperator = "AND" then results.all (fun b => b)
    else results.any (fun b => b)

/-- The sort relation of `routes.sort((a, b) => b.priority - a.priority)`:
`a` may come before `b` exactly when the comparator is non-positive,
i.e. when `b.priority ≤ a.priority`. -/
def routeGE (a b : Route) : Prop := b.priority ≤ a.priority

instance : DecidableRel routeGE := fun a b =>
  inferInstanceAs (Decidable (b.priority ≤ a.priority))

instance : IsTotal Route routeGE :=
  ⟨fun a b => (le_total b.priority a.priority).imp id id⟩

instance : IsTrans Route routeGE :=
  ⟨fun _ _ _ h1 h2 => le_trans h2 h1⟩

/-- Model of the JavaScript stable sort in `matchRoute`.  ECMAScript
guarantees `Array.prototype.sort` is stable, and a stable sort by
priority descending is the unique permutation that is sorted under
`routeGE` and keeps equal-priority elements in input order, which is
what `List.insertionSort` produces for this total transitive relation. -/
def sortRoutes (l : List Route) : List Route :=
  List.insertionSort routeGE l

/-- Model of `RouteMatcher.matchRoute`: keep the enabled routes, sort by
priority descending (stable), and return the first whose conditions
hold. -/
def matchRoute (env : JsEnv) (routes : List Route) (ctx : SimInput) : Option Route :=
  (sortRoutes (routes.filter (fun r => r.enabled))).find?
    (fun r => evaluateConditions env r ctx)

/-- One entry of the execution trace (`SimulationStep` in
types/simulation.ts); the wall-clock `duration` field is not modelled. -/
structure SimStep where
  step : Nat
  type : String
  description : String
  input : Option Json
  output : Option Json
  success : Bool
  error : Option String
deriving DecidableEq

/-- One entry of the error list (`SimulationError`). -/
structure SimError where
  severity : String
  message : String
  context : String
  suggestion : Option String
deriving DecidableEq

/-- The output bundle of one simulation (`SimulationContext.output`). -/
structure SimOutput where
  matchedRoute : Option String := none
  transformedPayload : Option Json := none
  destination : Option String := none
  errors : List SimError := []
deriving DecidableEq

/-- One completed simulation, restricted to the fields `startSimulation`
fills that the verified claims are about. -/
structure Simulation where
  simInput : SimInput
  trace : List SimStep
  output : SimOutput
deriving DecidableEq

/-- The step-1 trace entry pushed by `startSimulation` after matching. -/
def routeStep (inp : SimInput) (m : Option Route) : SimStep :=
  { step := 1
    type := "route"
    description :=
      match m with
      | some r => "Matched route: " ++ r.name
      | none => "No matching route found"
    input := some inp.payload
    output := m.map (fun r => Json.str r.id)
    success := m.isSome
    error := none }

/-- The step-2 trace entry pushed by `startSimulation` after a transform
ran. -/
def transformStep (inp : SimInput) (tr : TransformResult) : SimStep :=
  { step := 2
    type := "transform"
    description := "Applied JQ transformation"
    input := some inp.payload
    output := tr.output
    success := tr.success
    error := tr.error }

/-- The warning pushed when no route matched. -/
def noMatchError : SimError :=
  { severity := "warning"
    message := "No matching route found for the given input"
    context := "Route Matching"
    suggestion := none }

/-- The error pushed when the matched route transform reported failure:
`transformResult.error || 'Transform failed'` with the first suggestion. -/
def transformFailError (tr : TransformResult) : SimError :=
  { severity := "error"
    message := jsStrOr tr.error "Transform failed"
    context := "JQ Transformation"
    suggestion := tr.suggestions.head? }

/-- The guarded body of `startSimulation` in simulationStore.ts, before
its surrounding `try`/`catch`: find the matching route, push the route
trace step, record match output, run the transform of the matched route
when enabled, and record its outcome.  The only operation inside the
guarded block that can raise is the transform invocation
(`jqService.transform`), modelled by the `Except` returned by `env.jq`;
condition evaluation catches its own faults inside `matchRoute`. -/
def startSimulationBody (env : JsEnv) (routes : List Route) (inp : SimInput) :
    Except String Simulation :=
  let matchedRoute := matchRoute env routes inp
  let baseTrace := [routeStep inp matchedRoute]
  match matchedRoute with
  | some route =>
      let out0 : SimOutput :=
        { matchedRoute := some route.id
          destination := some route.destination.target }
      match route.transform with
      | some t =>
          if t.enabled then
            match env.jq t.jqExpression inp.payload with
            | .error e => .error e
            | .ok tr =>
                let trace2 := baseTrace ++ [transformStep inp tr]
                if tr.success then
                  .ok { simInput := inp, trace := trace2
                        output := { out0 with transformedPayload := tr.output } }
                else
                  .ok { simInput := inp, trace := trace2
                        output := { out0 with errors := [transformFailError tr] } }
          else .ok { simInput := inp, trace := baseTrace, output := out0 }
      | none => .ok { simInput := inp, trace := baseTrace, output := out0 }
  | none =>
      .ok { simInput := inp, trace := baseTrace
            output := { matchedRoute := none, transformedPayload := none
                        destination := none, errors := [noMatchError] } }

/-- The `catch` branch of `startSimulation`: the simulation object built
so far is kept and an error entry with the raised message (or the
fallback text when the message is empty) is appended.  The only raise
site inside the guarded block is the transform invocation, which runs
after the route step was pushed and the matched-route output fields were
assigned; `matchRoute` is deterministic, so recomputing it reconstructs
that partial state. -/
def recoverSimulation (env : JsEnv) (routes : List Route) (inp : SimInput)
    (msg : String) : Simulation :=
  let matchedRoute := matchRoute env routes inp
  { simInput := inp
    trace := [routeStep inp matchedRoute]
    output := { matchedRoute := matchedRoute.map (fun r => r.id)
                transformedPayload := none
                destination := matchedRoute.map (fun r => r.destination.target)
                errors := [{ severity := "error"
                             message := jsStrOr (some msg) "Simulation failed"
                             context := "Simulation"
                             suggestion := none }] } }

/-- Model of `startSimulation` in simulationStore.ts: the guarded body
with its surrounding `try`/`catch`.  Total: every run yields a
`Simulation`. -/
def startSimulation (env : JsEnv) (routes : List Route) (inp : SimInput) : Simulation :=
  match startSimulationBody env routes inp with
  | .ok s => s
  | .error msg => recoverSimulation env routes inp msg

/-! Fixture environments and inputs for concrete evaluations. -/

/-- Fixture environment: the JQ call raises and the regex test reports no
match. -/
def envNone : JsEnv :=
  { jq := fun _ _ => .error "no jq", regexTest := fun _ _ => .ok false }

/-- Fixture environment: every external call raises. -/
def envRaise : JsEnv :=
  { jq := fun _ _ => .error "kaboom", regexTest := fun _ _ => .error "invalid pattern" }

/-- Fixture environment: the JQ call succeeds and emits the number 0. -/
def envJqZero : JsEnv :=
  { jq := fun _ _ =>
      .ok { success := true, output := some (Json.num 0), error := none, suggestions := [] }
    regexTest := fun _ _ => .ok false }

/-- Fixture environment: the JQ call reports failure with a message and a
suggestion. -/
def envJqFail : JsEnv :=
  { jq := fun _ _ =>
      .ok { success := false, output := none, error := some "boom", suggestions := ["fix it"] }
    regexTest := fun _ _ => .ok false }

/-- Fixture rule with no conditions. -/
def ruleEmpty : Route :=
  { id := "r1", name := "empty", enabled := true, priority := 10, conditions := []
    conditionOperator := "AND", transform := none, destination := { target := "svc" } }

/-- Fixture input with a small object payload. -/
def inpFix : SimInput :=
  { payload := Json.obj [("x", Json.num 1)], headers := [], metadata := [] }

/-- Fixture jq condition. -/
def condJqFix : RouteCondition :=
  { type := "jq", field := none, operator := "jq", value := none, jqExpression := some "0" }

/-- Fixture payload condition testing that the key x exists. -/
def condXExists : RouteCondition :=
  { type := "payload", field := some "x", operator := "exists", value := none, jqExpression := none }

/-- Fixture payload condition testing that the key y exists. -/
def condYExists : RouteCondition :=
  { type := "payload", field := some "y", operator := "exists", value := none, jqExpression := none }

/-- Fixture rule combining a true and a false condition with AND. -/
def ruleAndFix : Route :=
  { ruleEmpty with conditions := [condXExists, condYExists], conditionOperator := "AND" }

/-- Fixture rule combining a true and a false condition with OR. -/
def ruleOrFix : Route :=
  { ruleEmpty with conditions := [condXExists, condYExists], conditionOperator := "OR" }

/-! Claim C1: truthiness of jq conditions. -/

/-- C1 counterexample: a jq condition whose expression evaluates
successfully and emits the number 0 yields `false`, although the JQ
truthiness of the emitted value (as the claim states it) is `true`.  The
implementation applies JavaScript `Boolean(result.output)`, under which 0
and the empty string are falsy. -/
theorem c1_counterexample :
    evaluateCondition envJqZero condJqFix inpFix = false
    ∧ jqTruthySpec (Json.num 0) = true := by
  exact ⟨rfl, rfl⟩

/-- C1 amended: for every jq-typed condition with a non-empty expression
whose evaluation succeeds, the boolean result is the JavaScript
truthiness of the emitted value: false exactly when the emitted value is
`false`, `null`, the number 0, the empty string, or absent; true for
every other value. -/
theorem c1_js_truthiness (env : JsEnv) (c : RouteCondition) (ctx : SimInput)
    (e : String) (r : TransformResult)
    (htype : c.type = "jq") (hexp : c.jqExpression = some e) (hne : e ≠ "")
    (hjq : env.jq e ctx.payload = .ok r) (hsucc : r.success = true) :
    evaluateCondition env c ctx = jsTruthy r.output := by
  simp [evaluateCondition, htype, evaluateJQCondition, hexp, hne, hjq, hsucc]

/-- C1 witness: the amended theorem applied at the fixture where jq emits
the number 0. -/
theorem c1_witness :
    evaluateCondition envJqZero condJqFix inpFix = jsTruthy (some (Json.num 0)) :=
  c1_js_truthiness envJqZero condJqFix inpFix "0"
    { success := true, output := some (Json.num 0), error := none, suggestions := [] }
    rfl rfl (by decide) rfl rfl

/-! Claim C7: empty condition sequences match vacuously. -/

/-- C7: a rule with an empty condition sequence has combined condition
result true for every context and environment, regardless of the
condition operator. -/
theorem c7_empty_conditions (env : JsEnv) (r : Route) (ctx : SimInput)
    (h : r.conditions = []) : evaluateConditions env r ctx = true := by
  simp [evaluateConditions, h]

/-- C7 witness: the fixture rule with no conditions matches the fixture
input. -/
theorem c7_witness : evaluateConditions envNone ruleEmpty inpFix = true :=
  c7_empty_conditions envNone ruleEmpty inpFix rfl

/-! Claim C8: AND and OR combination semantics. -/

/-- C8: for a rule with a non-empty condition sequence, the combined
result under operator AND is true exactly when every condition holds,
and under operator OR exactly when at least one condition holds. -/
theorem c8_and_or (env : JsEnv) (r : Route) (ctx : SimInput)
    (hne : r.conditions ≠ []) :
    (r.conditionOperator = "AND" →
      (evaluateConditions env r ctx = true ↔
        ∀ c ∈ r.conditions, evaluateCondition env c ctx = true))
    ∧ (r.conditionOperator = "OR" →
      (evaluateConditions env r ctx = true ↔
        ∃ c ∈ r.conditions, evaluateCondition env c ctx = true)) := by
  constructor
  · intro hop
    simp [evaluateConditions, hne, hop, List.all_eq_true]
  · intro hop
    simp [evaluateConditions, hne, hop, List.any_eq_true]

/-- C8 witness: with conditions [x exists (true), y exists (false)] on
the fixture payload, the AND rule does not match and the OR rule does. -/
theorem c8_witness :
    evaluateConditions envNone ruleAndFix inpFix = false
    ∧ evaluateConditions envNone ruleOrFix inpFix = true := by
  constructor
  · have h := (c8_and_or envNone ruleAndFix inpFix (by decide)).1 rfl
    cases hv : evaluateConditions envNone ruleAndFix inpFix
    · rfl
    · have := h.mp hv condYExists (by decide)
      exact absurd this (by decide)
  · exact (c8_and_or envNone ruleOrFix inpFix (by decide)).2 rfl |>.mpr
      ⟨condXExists, by decide, by decide⟩

/-! Claim C2: trace contents per run. -/

/-- C2 counterexample: a run in which one enabled rule is examined (and
matched) produces a trace with no condition-typed step at all; the claim
asks for one condition step per rule examined. -/
theorem c2_counterexample :
    (startSimulation envNone [ruleEmpty] inpFix).output.matchedRoute = some "r1"
    ∧ ((startSimulation envNone [ruleEmpty] inpFix).trace.filter
        (fun s => s.type == "condition")) = [] := by
  exact ⟨rfl, rfl⟩

/-- C2 amended: the trace never contains a condition-typed step.  Its
head is always the single route-typed step recording the match outcome,
and any further step is the transform step. -/
theorem c2_trace_steps (env : JsEnv) (routes : List Route) (inp : SimInput) :
    (startSimulation env routes inp).trace.head? =
        some (routeStep inp (matchRoute env routes inp))
    ∧ (∀ s ∈ (startSimulation env routes inp).trace.tail, s.type = "transform")
    ∧ (∀ s ∈ (startSimulation env routes inp).trace, s.type ≠ "condition") := by
  cases hm : matchRoute env routes inp with
  | none =>
      simp [startSimulation, startSimulationBody, hm, routeStep]
  | some route =>
      cases ht : route.transform with
      | none => simp [startSimulation, startSimulationBody, hm, ht, routeStep]
      | some t =>
          cases hen : t.enabled with
          | false => simp [startSimulation, startSimulationBody, hm, ht, hen, routeStep]
          | true =>
              cases hjq : env.jq t.jqExpression inp.payload with
              | error e =>
                  simp [startSimulation, startSimulationBody, recoverSimulation,
                        hm, ht, hen, hjq, routeStep]
              | ok tr =>
                  cases hs : tr.success with
                  | false =>
                      simp [startSimulation, startSimulationBody, hm, ht, hen, hjq, hs,
                            routeStep, transformStep]
                  | true =>
                      simp [startSimulation, startSimulationBody, hm, ht, hen, hjq, hs,
                            routeStep, transformStep]

/-! Claim C3: metadata field resolution. -/

/-- Fixture metadata condition with a dotted field name. -/
def condMetaDotted : RouteCondition :=
  { type := "metadata", field := some "a.b", operator := "exists", value := none
    jqExpression := none }

/-- Fixture input whose metadata holds a nested object under the key a. -/
def inpMetaNested : SimInput :=
  { payload := Json.null, headers := [], metadata := [("a", Json.obj [("b", Json.str "x")])] }

/-- C3 counterexample: for a metadata condition with the dotted field
"a.b" over metadata that nests b inside a, the implementation looks up
the literal key "a.b" and finds nothing, so the condition is false,
while the split-and-walk traversal the claim describes resolves the
value "x" (and the exists comparison on it is true). -/
theorem c3_counterexample :
    evaluateCondition envNone condMetaDotted inpMetaNested = false
    ∧ getNestedValue (Json.obj [("a", Json.obj [("b", Json.str "x")])]) "a.b"
        = some (Json.str "x")
    ∧ compareValues envNone (some (Json.str "x")) "exists" none = true := by
  exact ⟨rfl, rfl, rfl⟩

/-- C3 amended: a metadata condition resolves its field as one literal
key of the metadata map (like headers), while a payload condition
resolves its field by the split-and-walk traversal. -/
theorem c3_flat_metadata_lookup (env : JsEnv) (ctx : SimInput) (f op : String)
    (v : Option Json) (hne : f ≠ "") :
    evaluateCondition env
        { type := "metadata", field := some f, operator := op, value := v
          jqExpression := none } ctx
      = compareValues env (ctx.metadata.lookup f) op v
    ∧ evaluateCondition env
        { type := "payload", field := some f, operator := op, value := v
          jqExpression := none } ctx
      = compareValues env (getNestedValue ctx.payload f) op v := by
  constructor
  · simp [evaluateCondition, evaluateMetadataCondition, hne]
  · simp [evaluateCondition, evaluatePayloadCondition, hne]

/-- C3 witness: the amended theorem applied at the dotted fixture. -/
theorem c3_witness :
    evaluateCondition envNone condMetaDotted inpMetaNested
      = compareValues envNone (inpMetaNested.metadata.lookup "a.b") "exists" none
    ∧ evaluateCondition envNone
        { type := "payload", field := some "a.b", operator := "exists", value := none
          jqExpression := none } inpMetaNested
      = compareValues envNone (getNestedValue inpMetaNested.payload "a.b") "exists" none :=
  c3_flat_metadata_lookup envNone inpMetaNested "a.b" "exists" none (by decide)

/-! Claim C4: transform failure does not unmatch. -/

/-- Fixture rule with an enabled transform and no conditions. -/
def ruleTransformFix : Route :=
  { ruleEmpty with transform := some { enabled := true, jqExpression := ".x" } }

/-- C4: when the matched rule has an enabled transform whose evaluation
reports failure, the result still records the matched rule and its
destination, the transformed payload stays absent, and the error list
holds an error-severity entry carrying the underlying failure message. -/
theorem c4_transform_failure (env : JsEnv) (routes : List Route) (inp : SimInput)
    (R : Route) (t : TransformConfig) (tr : TransformResult) (m : String)
    (hmatch : matchRoute env routes inp = some R)
    (ht : R.transform = some t) (hen : t.enabled = true)
    (hjq : env.jq t.jqExpression inp.payload = .ok tr)
    (hfail : tr.success = false)
    (herr : tr.error = some m) (hmne : m ≠ "") :
    (startSimulation env routes inp).output.matchedRoute = some R.id
    ∧ (startSimulation env routes inp).output.destination = some R.destination.target
    ∧ (startSimulation env routes inp).output.transformedPayload = none
    ∧ ∃ err ∈ (startSimulation env routes inp).output.errors,
        err.severity = "error" ∧ err.message = m := by
  simp [startSimulation, startSimulationBody, hmatch, ht, hen, hjq, hfail,
        transformFailError, jsStrOr, herr, hmne]

/-- C4 witness: the theorem applied to the enabled-transform fixture
under the environment whose jq call reports failure with message boom. -/
theorem c4_witness :
    (startSimulation envJqFail [ruleTransformFix] inpFix).output.matchedRoute = some "r1"
    ∧ (startSimulation envJqFail [ruleTransformFix] inpFix).output.destination = some "svc"
    ∧ (startSimulation envJqFail [ruleTransformFix] inpFix).output.transformedPayload = none
    ∧ ∃ err ∈ (startSimulation envJqFail [ruleTransformFix] inpFix).output.errors,
        err.severity = "error" ∧ err.message = "boom" :=
  c4_transform_failure envJqFail [ruleTransformFix] inpFix ruleTransformFix
    { enabled := true, jqExpression := ".x" }
    { success := false, output := none, error := some "boom", suggestions := ["fix it"] }
    "boom" (by decide) rfl rfl rfl rfl rfl (by decide)

/-! Claim C9: absent resolution in payload paths. -/

/-- Fixture payload condition walking into a string property. -/
def condALength : RouteCondition :=
  { type := "payload", field := some "a.length", operator := "exists", value := none
    jqExpression := none }

/-- Fixture input whose payload maps a to a two-character string. -/
def inpStrA : SimInput :=
  { payload := Json.obj [("a", Json.str "hi")], headers := [], metadata := [] }

/-- C9 counterexample: with payload mapping a to the string "hi", the
path "a.length" reaches a non-object value with a further segment
remaining, yet the implementation resolves the JavaScript string
property and yields 2, so the exists condition is true; the claim says
the resolved value must be absent and exists false. -/
theorem c9_counterexample :
    getNestedValue (Json.obj [("a", Json.str "hi")]) "a.length" = some (Json.num 2)
    ∧ evaluateCondition envNone condALength inpStrA = true := by
  exact ⟨rfl, rfl⟩

/-- C9 amended: a missing object key, or a null, boolean or number
reached mid-path, resolves to absent, and for a payload exists condition
the result is true exactly when the resolved value is neither absent nor
JSON null; however strings (and arrays) expose the JavaScript length
property (and element indices), so a non-object value with a remaining
segment is not always absent. -/
theorem c9_absent_resolution (env : JsEnv) (c : RouteCondition) (ctx : SimInput)
    (f : String) (h1 : c.type = "payload") (h2 : c.field = some f) (h3 : f ≠ "")
    (h4 : c.operator = "exists") :
    (evaluateCondition env c ctx = true ↔
      (getNestedValue ctx.payload f ≠ none ∧ getNestedValue ctx.payload f ≠ some Json.null))
    ∧ (∀ k, jsIndex Json.null k = none)
    ∧ (∀ b k, jsIndex (Json.bool b) k = none)
    ∧ (∀ n k, jsIndex (Json.num n) k = none)
    ∧ (∀ fields k, fields.lookup k = none → jsIndex (Json.obj fields) k = none)
    ∧ (∀ s, jsIndex (Json.str s) "length" = some (Json.num (s.length : Int))) := by
  refine ⟨?_, fun k => rfl, fun b k => rfl, fun n k => rfl,
    fun fields k h => by simp [jsIndex, h], fun s => rfl⟩
  simp only [evaluateCondition, h1, evaluatePayloadCondition, h2, h4]
  cases hv : getNestedValue ctx.payload f with
  | none => simp [h3, compareValues]
  | some j => cases j <;> simp [h3, compareValues]

/-- Fixture payload condition whose path dead-ends in a number. -/
def condABMissing : RouteCondition :=
  { type := "payload", field := some "a.b", operator := "exists", value := none
    jqExpression := none }

/-- Fixture input whose payload maps a to a number. -/
def inpNumA : SimInput :=
  { payload := Json.obj [("a", Json.num 5)], headers := [], metadata := [] }

/-- C9 witness: the amended theorem applied where the path "a.b"
dead-ends in the number 5, giving an absent resolution and a false
exists condition. -/
theorem c9_witness :
    evaluateCondition envNone condABMissing inpNumA = false
    ∧ jsIndex (Json.num 5) "b" = none := by
  have h := c9_absent_resolution envNone condABMissing inpNumA "a.b" rfl rfl (by decide) rfl
  refine ⟨?_, h.2.2.2.1 5 "b"⟩
  cases hv : evaluateCondition envNone condABMissing inpNumA with
  | false => rfl
  | true => exact (((h.1.mp hv).1) (by decide)).elim

/-! Claim C10: totality and degradation of faults. -/

/-- C10: the run operation never propagates a raise: when the guarded
body succeeds the result is its simulation, and when it raises the
result is the recovered simulation whose error list holds an
error-severity entry; moreover each fault the claim lists degrades to a
false condition: unknown condition type, unknown operator, missing
field, raising regex test, and raising jq call. -/
theorem c10_totality (env : JsEnv) (routes : List Route) (inp : SimInput) :
    (∀ s, startSimulationBody env routes inp = Except.ok s →
        startSimulation env routes inp = s)
    ∧ (∀ msg, startSimulationBody env routes inp = Except.error msg →
        startSimulation env routes inp = recoverSimulation env routes inp msg
        ∧ ∃ err ∈ (startSimulation env routes inp).output.errors, err.severity = "error")
    ∧ (∀ c : RouteCondition, c.type ≠ "jq" → c.type ≠ "payload" → c.type ≠ "header" →
        c.type ≠ "metadata" → evaluateCondition env c inp = false)
    ∧ (∀ (a v : Option Json) (op : String), op ≠ "equals" → op ≠ "contains" →
        op ≠ "regex" → op ≠ "exists" → compareValues env a op v = false)
    ∧ (∀ c : RouteCondition, c.field = none →
        (c.type = "payload" → evaluateCondition env c inp = false)
        ∧ (c.type = "header" → evaluateCondition env c inp = false)
        ∧ (c.type = "metadata" → evaluateCondition env c inp = false))
    ∧ (∀ (a v : Option Json) (msg : String),
        env.regexTest v (jsToString a) = Except.error msg →
        compareValues env a "regex" v = false)
    ∧ (∀ (c : RouteCondition) (e msg : String), c.type = "jq" → c.jqExpression = some e →
        env.jq e inp.payload = Except.error msg → evaluateCondition env c inp = false) := by
  refine ⟨?_, ?_, ?_, ?_, ?_, ?_, ?_⟩
  · intro s h; simp [startSimulation, h]
  · intro msg h
    refine ⟨by simp [startSimulation, h], ?_⟩
    simp [startSimulation, h, recoverSimulation]
  · intro c h1 h2 h3 h4
    simp [evaluateCondition, h1, h2, h3, h4]
  · intro a v op h1 h2 h3 h4
    simp [compareValues, h1, h2, h3, h4]
  · intro c h
    refine ⟨?_, ?_, ?_⟩ <;> intro ht <;>
      simp [evaluateCondition, ht, evaluatePayloadCondition, evaluateHeaderCondition,
            evaluateMetadataCondition, h]
  · intro a v msg h
    simp [compareValues, h]
  · intro c e msg h1 h2 h3
    rcases eq_or_ne e "" with he | he <;>
      simp [evaluateCondition, h1, evaluateJQCondition, h2, he, h3]

/-- Fixture condition with an unrecognised type string. -/
def condMystery : RouteCondition :=
  { type := "mystery", field := none, operator := "equals", value := none
    jqExpression := none }

/-- Fixture jq condition with a non-empty expression. -/
def condJqX : RouteCondition :=
  { type := "jq", field := none, operator := "jq", value := none, jqExpression := some ".x" }

/-- C10 witness: under the environment whose every external call raises,
the run with an enabled transform recovers instead of propagating;
an unknown condition type, a raising regex test and a raising jq call
each degrade to false. -/
theorem c10_witness :
    startSimulation envRaise [ruleTransformFix] inpFix
      = recoverSimulation envRaise [ruleTransformFix] inpFix "kaboom"
    ∧ evaluateCondition envRaise condMystery inpFix = false
    ∧ compareValues envRaise (some (Json.str "x")) "regex" (some (Json.str "(")) = false
    ∧ evaluateCondition envRaise condJqX inpFix = false := by
  have h := c10_totality envRaise [ruleTransformFix] inpFix
  exact ⟨(h.2.1 "kaboom" rfl).1,
    h.2.2.1 condMystery (by decide) (by decide) (by decide) (by decide),
    h.2.2.2.2.2.1 (some (Json.str "x")) (some (Json.str "(")) "invalid pattern" rfl,
    h.2.2.2.2.2.2 condJqX ".x" "kaboom" rfl rfl rfl⟩

/-! Helper lemmas about the stable priority sort and first-match search. -/

/-- Membership is preserved by the stable sort. -/
theorem mem_sortRoutes {a : Route} {l : List Route} : a ∈ sortRoutes l ↔ a ∈ l :=
  (List.perm_insertionSort routeGE l).mem_iff

/-- The stable sort orders routes by priority descending. -/
theorem sorted_sortRoutes (l : List Route) : (sortRoutes l).Sorted routeGE :=
  List.sorted_insertionSort routeGE l

/-- Occurrence counts are preserved by the stable sort. -/
theorem count_sortRoutes (a : Route) (l : List Route) :
    (sortRoutes l).count a = l.count a :=
  (List.perm_insertionSort routeGE l).count_eq a

/-- The stable sort keeps an ordered pair whose first element has at
least the priority of the second. -/
theorem pair_sublist_sortRoutes {A B : Route} {l : List Route}
    (hBA : B.priority ≤ A.priority) (h : List.Sublist [A, B] l) :
    List.Sublist [A, B] (sortRoutes l) :=
  List.pair_sublist_insertionSort (show routeGE A B from hBA) h

/-- On a list sorted by priority descending, the first element
satisfying the predicate has at least the priority of any satisfying
member. -/
theorem find_sorted_ge (p : Route → Bool) :
    ∀ {l : List Route}, l.Sorted routeGE → ∀ {A : Route}, A ∈ l → p A = true →
      ∃ C, l.find? p = some C ∧ p C = true ∧ A.priority ≤ C.priority := by
  intro l
  induction l with
  | nil => intro _ A hA _; cases hA
  | cons y ys ih =>
      intro hs A hA hpA
      rcases List.sorted_cons.mp hs with ⟨hy, hs2⟩
      by_cases hpy : p y = true
      · refine ⟨y, List.find?_cons_of_pos ys hpy, hpy, ?_⟩
        rcases List.mem_cons.mp hA with rfl | hA2
        · exact le_refl _
        · exact hy A hA2
      · have hA2 : A ∈ ys := by
          rcases List.mem_cons.mp hA with rfl | h2
          · exact absurd hpA hpy
          · exact h2
        rcases ih hs2 hA2 hpA with ⟨C, hf, hpC, hle⟩
        exact ⟨C, by rw [List.find?_cons_of_neg ys hpy, hf], hpC, hle⟩

/-- If A precedes B in the list, B occurs only once, and A satisfies the
predicate, then the first satisfying element is not B. -/
theorem find_first_ne (p : Route → Bool) (B : Route) :
    ∀ {s : List Route} {A : Route}, List.Sublist [A, B] s → s.count B = 1 →
      p A = true → ∃ C, s.find? p = some C ∧ C ≠ B := by
  intro s
  induction s with
  | nil => intro A h; cases h
  | cons y ys ih =>
      intro A h hc hpA
      by_cases hpy : p y = true
      · refine ⟨y, List.find?_cons_of_pos ys hpy, ?_⟩
        intro hyB
        have hBys : B ∈ ys := by
          cases h with
          | cons _ h2 => exact h2.subset (show B ∈ [A, B] by simp)
          | cons₂ _ h2 => exact h2.subset (show B ∈ [B] by simp)
        rw [hyB, List.count_cons_self] at hc
        have hpos := List.count_pos_iff.mpr hBys
        omega
      · have hyA : y ≠ A := fun he => hpy (he ▸ hpA)
        have h2 : List.Sublist [A, B] ys := by
          cases h with
          | cons _ h3 => exact h3
          | cons₂ _ h3 => exact absurd rfl hyA
        have hyB : y ≠ B := by
          intro he
          have hBys : B ∈ ys := h2.subset (show B ∈ [A, B] by simp)
          rw [he, List.count_cons_self] at hc
          have hpos := List.count_pos_iff.mpr hBys
          omega
        have hc2 : ys.count B = 1 := by
          rw [List.count_cons_of_ne (fun he => hyB he.symm)] at hc
          exact hc
        rcases ih h2 hc2 hpA with ⟨C, hf, hCB⟩
        exact ⟨C, by rw [List.find?_cons_of_neg ys hpy, hf], hCB⟩

/-! Claim C5: priority ordering. -/

/-- C5: when two enabled rules both have their condition sets satisfied
and A has strictly higher priority than B, the engine never selects B:
it selects a rule whose priority is at least that of A. -/
theorem c5_priority_ordering (env : JsEnv) (routes : List Route) (inp : SimInput)
    (A B : Route) (hA : A ∈ routes) (hB : B ∈ routes)
    (hAe : A.enabled = true) (hBe : B.enabled = true)
    (hp : B.priority < A.priority)
    (hmA : evaluateConditions env A inp = true)
    (hmB : evaluateConditions env B inp = true) :
    ∃ C, matchRoute env routes inp = some C
      ∧ A.priority ≤ C.priority ∧ C ≠ B := by
  have hAf : A ∈ routes.filter (fun r => r.enabled) :=
    List.mem_filter.mpr ⟨hA, by simp [hAe]⟩
  have hAs : A ∈ sortRoutes (routes.filter (fun r => r.enabled)) := mem_sortRoutes.mpr hAf
  rcases find_sorted_ge (fun r => evaluateConditions env r inp)
      (sorted_sortRoutes _) hAs hmA with ⟨C, hf, _, hle⟩
  refine ⟨C, ?_, hle, ?_⟩
  · simpa [matchRoute] using hf
  · rintro rfl
    exact absurd hle (not_le.mpr hp)

/-- Fixture rule with high priority. -/
def ruleHigh : Route := { ruleEmpty with id := "hi", name := "hi", priority := 100 }

/-- Fixture rule with low priority. -/
def ruleLow : Route := { ruleEmpty with id := "lo", name := "lo", priority := 1 }

/-- C5 witness: with the low-priority rule listed first, the engine
still selects a rule of at least the high priority, never the low one. -/
theorem c5_witness :
    ∃ C, matchRoute envNone [ruleLow, ruleHigh] inpFix = some C
      ∧ ruleHigh.priority ≤ C.priority ∧ C ≠ ruleLow :=
  c5_priority_ordering envNone [ruleLow, ruleHigh] inpFix ruleHigh ruleLow
    (by decide) (by decide) rfl rfl (by decide) rfl rfl

/-! Claim C6: tie-break stability. -/

/-- C6: for two enabled rules of equal priority that both match, with A
listed before B in the input collection (and B occurring once), the
engine never selects B: it selects a rule of at least that priority
distinct from B. -/
theorem c6_tie_break_stability (env : JsEnv) (routes : List Route) (inp : SimInput)
    (A B : Route)
    (hAe : A.enabled = true) (hBe : B.enabled = true)
    (hp : A.priority = B.priority)
    (hAB : List.Sublist [A, B] routes)
    (hcount : routes.count B = 1)
    (hmA : evaluateConditions env A inp = true)
    (hmB : evaluateConditions env B inp = true) :
    ∃ C, matchRoute env routes inp = some C
      ∧ A.priority ≤ C.priority ∧ C ≠ B := by
  have hfilter : List.Sublist [A, B] (routes.filter (fun r => r.enabled)) := by
    have h2 := hAB.filter (fun r => r.enabled)
    simpa [List.filter, hAe, hBe] using h2
  have hsorted : List.Sublist [A, B] (sortRoutes (routes.filter (fun r => r.enabled))) :=
    pair_sublist_sortRoutes hp.ge hfilter
  have hcountf : (routes.filter (fun r => r.enabled)).count B = 1 := by
    have hsub : List.Sublist (routes.filter (fun r => r.enabled)) routes :=
      List.filter_sublist routes
    have hle := hsub.count_le B
    have hmem : B ∈ routes.filter (fun r => r.enabled) :=
      List.mem_filter.mpr ⟨hAB.subset (by simp), by simp [hBe]⟩
    have hge := List.count_pos_iff.mpr hmem
    omega
  have hcounts : (sortRoutes (routes.filter (fun r => r.enabled))).count B = 1 := by
    rw [count_sortRoutes]
    exact hcountf
  rcases find_first_ne (fun r => evaluateConditions env r inp) B hsorted hcounts hmA
    with ⟨C, hf, hCB⟩
  have hAs : A ∈ sortRoutes (routes.filter (fun r => r.enabled)) := hsorted.subset (by simp)
  rcases find_sorted_ge (fun r => evaluateConditions env r inp)
      (sorted_sortRoutes _) hAs hmA with ⟨C2, hf2, _, hle2⟩
  rw [hf] at hf2
  cases hf2
  exact ⟨C, by simpa [matchRoute] using hf, hle2, hCB⟩

/-- Fixture rule sharing the default priority, listed second. -/
def ruleSecond : Route := { ruleEmpty with id := "r2", name := "second" }

/-- C6 witness: two equal-priority matching rules; the engine never
selects the later-listed one. -/
theorem c6_witness :
    ∃ C, matchRoute envNone [ruleEmpty, ruleSecond] inpFix = some C
      ∧ ruleEmpty.priority ≤ C.priority ∧ C ≠ ruleSecond :=
  c6_tie_break_stability envNone [ruleEmpty, ruleSecond] inpFix ruleEmpty ruleSecond
    rfl rfl rfl (List.Sublist.refl _) (by decide) rfl rfl
